import Mathlib

attribute [local semireducible] Rat.mul Rat.add Rat.sub Rat.inv Rat.ofScientific

/-!
# Formal model of the PX4 `manual_control` module (`ManualControl.cpp`)

A shallow embedding of `ManualControl::Run` (src/src/modules/manual_control/
ManualControl.cpp) and of the two external collaborators its behaviour depends
on — the `Hysteresis` debounce timer and the multi-channel input selector —
which are not part of the given sources and are therefore modelled from the
specification (spec.md §4.1 resp. §4.2).

Modelling conventions:
* `hrt_abstime` (microseconds, uint64) is modelled as `Nat`;
* float axis values are modelled as `ℚ` (the threshold comparisons of the
  module are exact decimal comparisons);
* the C float `NAN` stored in `_previous_x` … `_previous_r` is modelled by
  `Option ℚ` with `none` for NaN: every IEEE `>` comparison involving NaN is
  false, which is exactly what `deltaExceeds none _ _ = false` captures;
* one invocation of `ManualControl::Run` is one `Run` step: the cycle's
  environment (pending parameter update, the selector's resulting setpoint,
  the switch sample, the wall clock `now`) is collected in a `CycleInput`.
-/

/-- The published `manual_control_setpoint` record (axes, source, validity,
and the flags the module annotates before publishing). -/
structure Setpoint where
  x : ℚ
  y : ℚ
  z : ℚ
  r : ℚ
  timestamp : Nat
  data_source : Nat
  valid : Bool
  arm_gesture : Bool
  disarm_gesture : Bool
  user_override : Bool
deriving Repr, DecidableEq

/-- Modelled from the spec: the Hysteresis Timer state (§4.1, §3
`HysteresisState`): a candidate boolean, a confirmed boolean, the time the
candidate last changed, and one required hold duration per direction
(asymmetric debounce).  The `Hysteresis` class itself is not among the given
sources; only its call sites in `ManualControl::Run` are. -/
structure Hysteresis where
  candidate : Bool
  confirmed : Bool
  lastChange : Nat
  timeFromTrue : Nat
  timeFromFalse : Nat
deriving Repr, DecidableEq

/-- Modelled from the spec: the confirmation step of the Hysteresis Timer
(§4.1): once the elapsed time since the candidate last flipped to its current
value exceeds the configured hold duration (the duration configured for
leaving the currently confirmed state), the confirmed state is set to the
candidate. -/
def Hysteresis.updateConfirmed (h : Hysteresis) (now : Nat) : Hysteresis :=
  if h.candidate = h.confirmed then h
  else if h.lastChange + (if h.confirmed then h.timeFromTrue else h.timeFromFalse) < now then
    { h with confirmed := h.candidate }
  else h

/-- Modelled from the spec: `set_state_and_update(candidate, now)` (§4.1):
records the new candidate (remembering `now` as the time the candidate last
changed when it differs from the stored candidate), then runs the
confirmation step. -/
def Hysteresis.set_state_and_update (h : Hysteresis) (newState : Bool) (now : Nat) : Hysteresis :=
  Hysteresis.updateConfirmed
    (if newState = h.candidate then h
     else { h with candidate := newState, lastChange := now }) now

/-- Modelled from the spec: `get_state()` returns the confirmed value (§4.1). -/
def Hysteresis.get_state (h : Hysteresis) : Bool := h.confirmed

/-- Modelled from the spec: configuration of the Hysteresis Timer (§4.1): the
hold duration is set independently for the true-direction and the
false-direction transitions; `from_state` selects which direction's duration
is being configured. -/
def Hysteresis.set_hysteresis_time_from (h : Hysteresis) (fromState : Bool) (d : Nat) :
    Hysteresis :=
  if fromState then { h with timeFromTrue := d } else { h with timeFromFalse := d }

/-- Modelled from the spec: the Hysteresis Timer at process start (§3: state
conceptually reset at process start; both confirmed and candidate start
false, no hold durations configured yet). -/
def Hysteresis.initial : Hysteresis :=
  { candidate := false, confirmed := false, lastChange := 0
    timeFromTrue := 0, timeFromFalse := 0 }

/-- The auxiliary switch/button sample (`manual_control_switches`).  Its
content is read but — apart from an empty TODO block — never used by the
module (ManualControl.cpp lines 99–104, 158–163). -/
structure SwitchSample where
  timestamp : Nat
  mode_slot : Nat
  arm_switch : Nat
  return_switch : Nat
  loiter_switch : Nat
deriving Repr, DecidableEq

/-- The module parameters read by `ManualControl::Run`:
`RC_ARM_HYST` (ms), `COM_RC_IN_MODE`, `COM_RC_LOSS_T` (s),
`COM_RC_STICK_OV` (percent). -/
structure ManualControlParams where
  rc_arm_hyst : Nat
  com_rc_in_mode : Int
  com_rc_loss_t : ℚ
  com_rc_stick_ov : ℚ
deriving Repr, DecidableEq

/-- The configuration pushed into the input selector
(`set_rc_in_mode` / `set_timeout`, ManualControl.cpp lines 82–83);
`timeout` is in microseconds. -/
structure SelectorConfig where
  rc_in_mode : Int
  timeout : ℚ
deriving Repr, DecidableEq

/-- The environment of one `ManualControl::Run` invocation.  The multi-channel
input selector is not among the given sources, so its observable outcome for
the cycle — whether its setpoint is valid after ingesting this cycle's
samples and, if so, the sample content it selected (axes, timestamp, data
source, slot index) — is provided as input. -/
structure CycleInput where
  param_updated : Bool
  params : ManualControlParams
  now : Nat
  sel_valid : Bool
  sel_x : ℚ
  sel_y : ℚ
  sel_z : ℚ
  sel_r : ℚ
  sel_timestamp : Nat
  sel_data_source : Nat
  sel_instance : Int
  switches_updated : Bool
  switches : SwitchSample
deriving Repr, DecidableEq

/-- The persistent state of the `ManualControl` module across cycles:
the cached parameters, the two gesture hysteresis timers, the selector
configuration, the selector's mutable setpoint record (aliased via
`_selector.setpoint()`), the invalid-publish latch, the previous-gesture
edge memories, the previous axis values (`none` models NaN) and the
remembered selected slot index. -/
structure ManualControlState where
  params : ManualControlParams
  stick_arm_hysteresis : Hysteresis
  stick_disarm_hysteresis : Hysteresis
  selCfg : SelectorConfig
  selSp : Setpoint
  published_invalid_once : Bool
  previous_arm_gesture : Bool
  previous_disarm_gesture : Bool
  previous_x : Option ℚ
  previous_y : Option ℚ
  previous_z : Option ℚ
  previous_r : Option ℚ
  last_selected_input : Int
deriving Repr, DecidableEq

/-- The observable output of one cycle: the setpoint published this cycle (if
any), and whether an arm resp. disarm `vehicle_command` was sent. -/
structure CycleOutput where
  published : Option Setpoint
  arm_command : Bool
  disarm_command : Bool
deriving Repr, DecidableEq

/-- `fabsf`: the absolute value, written so that it evaluates by kernel
reduction on concrete rationals. -/
def ratAbs (q : ℚ) : ℚ := if q < 0 then -q else q

/-- `fabsf(cur - prev) > thr` where `prev` may be NaN (`none`): IEEE
comparisons involving NaN are false. -/
def deltaExceeds : Option ℚ → ℚ → ℚ → Bool
  | none, _, _ => false
  | some p, cur, thr => decide (ratAbs (cur - p) > thr)

/-- `fabsf(cur - prev) * 2 > thr` where `prev` may be NaN (`none`). -/
def deltaDoubledExceeds : Option ℚ → ℚ → ℚ → Bool
  | none, _, _ => false
  | some p, cur, thr => decide (ratAbs (cur - p) * 2 > thr)

/-- The parameter-update block of `ManualControl::Run` (lines 72–84): when a
parameter-update notification is pending, refresh the cached parameters, set
the false-direction hold time of both gesture hysteresis timers from
`RC_ARM_HYST` (ms → µs), and push input mode and source-loss timeout
(s → µs) into the selector. -/
def paramPhase (s : ManualControlState) (inp : CycleInput) : ManualControlState :=
  if inp.param_updated then
    { s with
      params := inp.params
      stick_arm_hysteresis :=
        s.stick_arm_hysteresis.set_hysteresis_time_from false (inp.params.rc_arm_hyst * 1000)
      stick_disarm_hysteresis :=
        s.stick_disarm_hysteresis.set_hysteresis_time_from false (inp.params.rc_arm_hyst * 1000)
      selCfg :=
        { rc_in_mode := inp.params.com_rc_in_mode
          timeout := inp.params.com_rc_loss_t * 1000000 } }
  else s

/-- Modelled from the spec: the observable effect of the input-ingestion part
of the cycle (lines 86–108) on the selector's mutable setpoint record
(§4.2): after feeding this cycle's samples (or `update_time_only`), the
record either holds the selected sample's content with `valid` set, or has
`valid` cleared; the annotation fields (`arm_gesture`, `disarm_gesture`,
`user_override`) written back by the module persist in the record.  The
selector's internal slot bookkeeping and priority policy are not among the
given sources. -/
def selectorPhase (s : ManualControlState) (inp : CycleInput) : ManualControlState :=
  if inp.sel_valid then
    { s with selSp :=
      { s.selSp with
        x := inp.sel_x, y := inp.sel_y, z := inp.sel_z, r := inp.sel_r
        timestamp := inp.sel_timestamp, data_source := inp.sel_data_source
        valid := true } }
  else
    { s with selSp := { s.selSp with valid := false } }

/-- The valid-selection branch of `ManualControl::Run` (lines 110–175):
clear the invalid-publish latch; compute the stick-gesture candidates and
feed them to the hysteresis timers stamped with the setpoint's own
timestamp; write the confirmed gestures into the setpoint; edge-trigger
arm/disarm commands; compute `user_override` from the previous cycle's axis
values; remember the current axis values; stamp the setpoint with `now` and
publish it; remember the selected slot index. -/
def validCycle (s : ManualControlState) (inp : CycleInput) :
    ManualControlState × CycleOutput :=
  let sp0 := s.selSp
  let right_stick_centered := decide (ratAbs sp0.x < 1/10) && decide (ratAbs sp0.y < 1/10)
  let stick_lower_left := decide (sp0.z < 1/10) && decide (sp0.r < -(9/10 : ℚ))
  let stick_lower_right := decide (sp0.z < 1/10) && decide (sp0.r > 9/10)
  let armH := s.stick_arm_hysteresis.set_state_and_update
    (stick_lower_right && right_stick_centered) sp0.timestamp
  let disarmH := s.stick_disarm_hysteresis.set_state_and_update
    (stick_lower_left && right_stick_centered) sp0.timestamp
  let armGesture := armH.get_state
  let disarmGesture := disarmH.get_state
  let previousArm :=
    if armGesture && !s.previous_arm_gesture then true
    else if !armGesture then false
    else s.previous_arm_gesture
  let armCmd := armGesture && !s.previous_arm_gesture
  let previousDisarm :=
    if disarmGesture && !s.previous_disarm_gesture then true
    else if !disarmGesture then false
    else s.previous_disarm_gesture
  let disarmCmd := disarmGesture && !s.previous_disarm_gesture
  let minimum_stick_change := (1/100 : ℚ) * s.params.com_rc_stick_ov
  let rpy_moved :=
    deltaExceeds s.previous_x sp0.x minimum_stick_change
    || deltaExceeds s.previous_y sp0.y minimum_stick_change
    || deltaExceeds s.previous_r sp0.r minimum_stick_change
  let throttle_moved := deltaDoubledExceeds s.previous_z sp0.z minimum_stick_change
  let userOverride := rpy_moved || throttle_moved
  let spOut :=
    { sp0 with
      arm_gesture := armGesture, disarm_gesture := disarmGesture
      user_override := userOverride, timestamp := inp.now }
  ({ s with
      published_invalid_once := false
      stick_arm_hysteresis := armH
      stick_disarm_hysteresis := disarmH
      selSp := spOut
      previous_arm_gesture := previousArm
      previous_disarm_gesture := previousDisarm
      previous_x := some sp0.x, previous_y := some sp0.y
      previous_z := some sp0.z, previous_r := some sp0.r
      last_selected_input := inp.sel_instance },
   { published := some spOut, arm_command := armCmd, disarm_command := disarmCmd })

/-- The invalid-selection branch of `ManualControl::Run` (lines 177–188):
reset the remembered slot index to the sentinel, publish the invalid
setpoint once per invalidation episode (latched), and reset the previous
axis values to NaN. -/
def invalidCycle (s : ManualControlState) : ManualControlState × CycleOutput :=
  let s1 := { s with last_selected_input := -1 }
  if s1.published_invalid_once then
    ({ s1 with previous_x := none, previous_y := none
               previous_z := none, previous_r := none },
     { published := none, arm_command := false, disarm_command := false })
  else
    ({ s1 with published_invalid_once := true
               previous_x := none, previous_y := none
               previous_z := none, previous_r := none },
     { published := some s1.selSp, arm_command := false, disarm_command := false })

/-- Everything of the cycle after the parameter-update block: input
ingestion (selector), then the valid or invalid branch. -/
def mainPhase (s : ManualControlState) (inp : CycleInput) :
    ManualControlState × CycleOutput :=
  let s2 := selectorPhase s inp
  if s2.selSp.valid then validCycle s2 inp else invalidCycle s2

/-- One invocation of `ManualControl::Run` (lines 60–194): the
parameter-update block first, then the rest of the cycle. -/
def ManualControl.Run (s : ManualControlState) (inp : CycleInput) :
    ManualControlState × CycleOutput :=
  mainPhase (paramPhase s inp) inp

/-- The outputs of a sequence of cycles. -/
def runTrace (s : ManualControlState) : List CycleInput → List CycleOutput
  | [] => []
  | inp :: rest =>
    (ManualControl.Run s inp).2 :: runTrace (ManualControl.Run s inp).1 rest

/-- The state after a sequence of cycles. -/
def runState (s : ManualControlState) : List CycleInput → ManualControlState
  | [] => s
  | inp :: rest => runState (ManualControl.Run s inp).1 rest

/-- Default (all-zero) cycle output, used as the out-of-range default for
indexed access into a trace. -/
def dfltOutput : CycleOutput :=
  { published := none, arm_command := false, disarm_command := false }

/-- Default cycle input, used as the out-of-range default for indexed access
into an input list. -/
def dfltInput : CycleInput :=
  { param_updated := false
    params := { rc_arm_hyst := 0, com_rc_in_mode := 0, com_rc_loss_t := 0, com_rc_stick_ov := 0 }
    now := 0, sel_valid := false, sel_x := 0, sel_y := 0, sel_z := 0, sel_r := 0
    sel_timestamp := 0, sel_data_source := 0, sel_instance := 0
    switches_updated := false
    switches := { timestamp := 0, mode_slot := 0, arm_switch := 0
                  return_switch := 0, loiter_switch := 0 } }

/-- The output of cycle `k` of a trace. -/
def outAt (s : ManualControlState) (inputs : List CycleInput) (k : Nat) : CycleOutput :=
  (runTrace s inputs).getD k dfltOutput

/-- The state entering cycle `k` of a trace. -/
def stateAt (s : ManualControlState) (inputs : List CycleInput) (k : Nat) :
    ManualControlState :=
  runState s (inputs.take k)

/-- The `arm_gesture` flag of the setpoint published this cycle (false when
nothing was published). -/
def pubArm (o : CycleOutput) : Bool :=
  match o.published with
  | some sp => sp.arm_gesture
  | none => false

/-- The `disarm_gesture` flag of the setpoint published this cycle (false
when nothing was published). -/
def pubDisarm (o : CycleOutput) : Bool :=
  match o.published with
  | some sp => sp.disarm_gesture
  | none => false

/-- The arm-gesture candidate as the spec states it: z below the low-throttle
threshold, r above the strongly-positive threshold, and the right stick
centered (spec §4.3). -/
def armGestureCandidate (x y z r : ℚ) : Bool :=
  decide (z < 1/10) && decide (r > 9/10) && decide (ratAbs x < 1/10) && decide (ratAbs y < 1/10)

/-- The disarm-gesture candidate as the spec states it: z below the
low-throttle threshold, r below the strongly-negative threshold, and the
right stick centered (spec §4.3). -/
def disarmGestureCandidate (x y z r : ℚ) : Bool :=
  decide (z < 1/10) && decide (r < -(9/10 : ℚ)) && decide (ratAbs x < 1/10) && decide (ratAbs y < 1/10)

/-- Concrete parameter values used to exercise the theorems on concrete
inputs. -/
def wParams : ManualControlParams :=
  { rc_arm_hyst := 1000, com_rc_in_mode := 0, com_rc_loss_t := 1/2, com_rc_stick_ov := 30 }

/-- A concrete invalid setpoint record. -/
def wInvalidSp : Setpoint :=
  { x := 0, y := 0, z := 0, r := 0, timestamp := 0, data_source := 0
    valid := false, arm_gesture := false, disarm_gesture := false, user_override := false }

/-- A concrete module state resembling the state at process start. -/
def wBaseState : ManualControlState :=
  { params := wParams
    stick_arm_hysteresis := Hysteresis.initial
    stick_disarm_hysteresis := Hysteresis.initial
    selCfg := { rc_in_mode := 0, timeout := 500000 }
    selSp := wInvalidSp
    published_invalid_once := false
    previous_arm_gesture := false
    previous_disarm_gesture := false
    previous_x := none, previous_y := none, previous_z := none, previous_r := none
    last_selected_input := -1 }

/-- A hysteresis timer whose candidate has been held true since time 0 but is
not yet confirmed. -/
def wPrimedHyst : Hysteresis :=
  { candidate := true, confirmed := false, lastChange := 0
    timeFromTrue := 0, timeFromFalse := 0 }

/-- A hysteresis timer whose candidate has been confirmed true. -/
def wHeldHyst : Hysteresis :=
  { candidate := true, confirmed := true, lastChange := 0
    timeFromTrue := 0, timeFromFalse := 0 }

/-- A concrete state whose arm timer is primed to confirm on the next sample. -/
def wArmPrimedState : ManualControlState :=
  { wBaseState with stick_arm_hysteresis := wPrimedHyst }

/-- A concrete state in which the arm gesture is confirmed and its edge
memory is set. -/
def wArmHeldState : ManualControlState :=
  { wBaseState with stick_arm_hysteresis := wHeldHyst, previous_arm_gesture := true }

/-- A concrete state in which the disarm gesture is confirmed and its edge
memory is set. -/
def wDisarmHeldState : ManualControlState :=
  { wBaseState with stick_disarm_hysteresis := wHeldHyst, previous_disarm_gesture := true }

/-- A valid cycle input with the stick held in the arm-gesture position. -/
def wArmInput : CycleInput :=
  { dfltInput with sel_valid := true, sel_r := 1, sel_timestamp := 5, now := 6 }

/-- A valid cycle input with the stick held in the disarm-gesture position. -/
def wDisarmInput : CycleInput :=
  { dfltInput with sel_valid := true, sel_r := -1, sel_timestamp := 5, now := 6 }

/-- A cycle input on which the selector's setpoint is invalid. -/
def wInvalidInput : CycleInput :=
  { dfltInput with sel_valid := false }

/-- A valid cycle input with a pending parameter-update notification. -/
def wParamInput : CycleInput :=
  { dfltInput with param_updated := true, params := wParams, sel_valid := true
                   sel_timestamp := 5, now := 6 }

/-- A concrete state remembering centered previous axis values. -/
def wPrevState : ManualControlState :=
  { wBaseState with previous_x := some 0, previous_y := some 0
                    previous_z := some 0, previous_r := some 0 }

/-- The inductive invariant carried through a trace for the pair of gesture
hysteresis timers `A` (arm) and `Dh` (disarm), the last published flags
`spA`/`spD`, and the time `t` of the last sample fed to the timers. -/
structure HPairInv (A Dh : Hysteresis) (spA spD : Bool) (t : Nat) : Prop where
  a_tft : A.timeFromTrue = 0
  d_tft : Dh.timeFromTrue = 0
  a_lc : A.lastChange ≤ t
  d_lc : Dh.lastChange ≤ t
  cand_excl : ¬(A.candidate = true ∧ Dh.candidate = true)
  a_pending : A.confirmed = true → A.candidate = false → A.lastChange = t
  d_pending : Dh.confirmed = true → Dh.candidate = false → Dh.lastChange = t
  a_cross : A.confirmed = true → Dh.candidate = true → A.lastChange ≤ Dh.lastChange
  d_cross : Dh.confirmed = true → A.candidate = true → Dh.lastChange ≤ A.lastChange
  conf_excl : ¬(A.confirmed = true ∧ Dh.confirmed = true)
  sp_excl : ¬(spA = true ∧ spD = true)

/-! ## Basic facts about the Hysteresis step -/

theorem Hysteresis.step_candidate (h : Hysteresis) (c : Bool) (t : Nat) :
    (h.set_state_and_update c t).candidate = c := by
  unfold Hysteresis.set_state_and_update Hysteresis.updateConfirmed
  split_ifs with h1 h2 h3 <;> simp_all

theorem Hysteresis.step_timeFromTrue (h : Hysteresis) (c : Bool) (t : Nat) :
    (h.set_state_and_update c t).timeFromTrue = h.timeFromTrue := by
  unfold Hysteresis.set_state_and_update Hysteresis.updateConfirmed
  split_ifs <;> rfl

theorem Hysteresis.step_timeFromFalse (h : Hysteresis) (c : Bool) (t : Nat) :
    (h.set_state_and_update c t).timeFromFalse = h.timeFromFalse := by
  unfold Hysteresis.set_state_and_update Hysteresis.updateConfirmed
  split_ifs <;> rfl

theorem Hysteresis.step_lastChange (h : Hysteresis) (c : Bool) (t : Nat) :
    (h.set_state_and_update c t).lastChange =
      if c = h.candidate then h.lastChange else t := by
  unfold Hysteresis.set_state_and_update Hysteresis.updateConfirmed
  split_ifs <;> rfl

theorem Hysteresis.step_confirmed (h : Hysteresis) (c : Bool) (t : Nat) :
    (h.set_state_and_update c t).confirmed =
      if c = h.confirmed then h.confirmed
      else if (if c = h.candidate then h.lastChange else t) +
              (if h.confirmed then h.timeFromTrue else h.timeFromFalse) < t then c
      else h.confirmed := by
  unfold Hysteresis.set_state_and_update Hysteresis.updateConfirmed
  split_ifs <;> simp_all

/-! ## Per-cycle characterizations of `ManualControl.Run` -/

theorem selectorPhase_selSp_valid (s : ManualControlState) (inp : CycleInput) :
    (selectorPhase s inp).selSp.valid = inp.sel_valid := by
  unfold selectorPhase
  split_ifs with h <;> simp [h]

theorem run_valid_arm (s : ManualControlState) (inp : CycleInput)
    (h : inp.sel_valid = true) :
    (ManualControl.Run s inp).2.arm_command =
      (pubArm (ManualControl.Run s inp).2 && !s.previous_arm_gesture) ∧
    (ManualControl.Run s inp).1.previous_arm_gesture = pubArm (ManualControl.Run s inp).2 := by
  cases hp : inp.param_updated <;>
    simp only [ManualControl.Run, mainPhase, paramPhase, selectorPhase, hp, h, if_true,
      if_false, Bool.false_eq_true, validCycle, pubArm] <;>
  · refine ⟨trivial, ?_⟩
    generalize (Hysteresis.set_state_and_update _ _ _).get_state = g
    cases g <;> cases hpg : s.previous_arm_gesture <;> simp [hpg]

theorem run_valid_disarm (s : ManualControlState) (inp : CycleInput)
    (h : inp.sel_valid = true) :
    (ManualControl.Run s inp).2.disarm_command =
      (pubDisarm (ManualControl.Run s inp).2 && !s.previous_disarm_gesture) ∧
    (ManualControl.Run s inp).1.previous_disarm_gesture =
      pubDisarm (ManualControl.Run s inp).2 := by
  cases hp : inp.param_updated <;>
    simp only [ManualControl.Run, mainPhase, paramPhase, selectorPhase, hp, h, if_true,
      if_false, Bool.false_eq_true, validCycle, pubDisarm] <;>
  · refine ⟨trivial, ?_⟩
    generalize (Hysteresis.set_state_and_update _ _ _).get_state = g
    cases g <;> cases hpg : s.previous_disarm_gesture <;> simp [hpg]

theorem run_latch (s : ManualControlState) (inp : CycleInput) :
    (ManualControl.Run s inp).1.published_invalid_once = !inp.sel_valid := by
  cases hp : inp.param_updated <;> cases hv : inp.sel_valid <;>
    simp only [ManualControl.Run, mainPhase, paramPhase, selectorPhase, hp, hv, if_true,
      if_false, Bool.false_eq_true, validCycle, invalidCycle] <;>
  first
  | rfl
  | (split_ifs <;> simp_all)

theorem run_valid_published (s : ManualControlState) (inp : CycleInput)
    (h : inp.sel_valid = true) :
    (ManualControl.Run s inp).2.published.isSome = true := by
  cases hp : inp.param_updated <;>
    simp only [ManualControl.Run, mainPhase, paramPhase, selectorPhase, hp, h, if_true,
      if_false, Bool.false_eq_true, validCycle] <;> rfl

theorem run_invalid_published (s : ManualControlState) (inp : CycleInput)
    (h : inp.sel_valid = false) :
    (ManualControl.Run s inp).2.published.isSome = !s.published_invalid_once := by
  cases hp : inp.param_updated <;>
    cases hl : s.published_invalid_once <;>
    simp only [ManualControl.Run, mainPhase, paramPhase, selectorPhase, hp, h, if_true,
      if_false, Bool.false_eq_true, invalidCycle, hl] <;> rfl

theorem run_invalid_state (s : ManualControlState) (inp : CycleInput)
    (h : inp.sel_valid = false) :
    (ManualControl.Run s inp).1.stick_arm_hysteresis.candidate
        = s.stick_arm_hysteresis.candidate ∧
    (ManualControl.Run s inp).1.stick_arm_hysteresis.confirmed
        = s.stick_arm_hysteresis.confirmed ∧
    (ManualControl.Run s inp).1.stick_arm_hysteresis.lastChange
        = s.stick_arm_hysteresis.lastChange ∧
    (ManualControl.Run s inp).1.stick_arm_hysteresis.timeFromTrue
        = s.stick_arm_hysteresis.timeFromTrue ∧
    (ManualControl.Run s inp).1.stick_disarm_hysteresis.candidate
        = s.stick_disarm_hysteresis.candidate ∧
    (ManualControl.Run s inp).1.stick_disarm_hysteresis.confirmed
        = s.stick_disarm_hysteresis.confirmed ∧
    (ManualControl.Run s inp).1.stick_disarm_hysteresis.lastChange
        = s.stick_disarm_hysteresis.lastChange ∧
    (ManualControl.Run s inp).1.stick_disarm_hysteresis.timeFromTrue
        = s.stick_disarm_hysteresis.timeFromTrue ∧
    (ManualControl.Run s inp).1.previous_arm_gesture = s.previous_arm_gesture ∧
    (ManualControl.Run s inp).1.previous_disarm_gesture = s.previous_disarm_gesture ∧
    (ManualControl.Run s inp).1.selSp.arm_gesture = s.selSp.arm_gesture ∧
    (ManualControl.Run s inp).1.selSp.disarm_gesture = s.selSp.disarm_gesture ∧
    (ManualControl.Run s inp).1.previous_x = none ∧
    (ManualControl.Run s inp).1.previous_y = none ∧
    (ManualControl.Run s inp).1.previous_z = none ∧
    (ManualControl.Run s inp).1.previous_r = none := by
  cases hp : inp.param_updated <;> cases hl : s.published_invalid_once <;>
    simp only [ManualControl.Run, mainPhase, paramPhase, selectorPhase,
      Hysteresis.set_hysteresis_time_from, hp, h, hl, if_true, if_false,
      Bool.false_eq_true, invalidCycle] <;>
  simp

theorem run_invalid_pub_none (s : ManualControlState) (inp : CycleInput)
    (h : inp.sel_valid = false) (hl : s.published_invalid_once = true) :
    (ManualControl.Run s inp).2.published = none := by
  cases hp : inp.param_updated <;>
    simp only [ManualControl.Run, mainPhase, paramPhase, selectorPhase, hp, h, hl, if_true,
      if_false, Bool.false_eq_true, invalidCycle]

/-! ## Trace indexing lemmas -/

theorem runTrace_length (l : List CycleInput) :
    ∀ s : ManualControlState, (runTrace s l).length = l.length := by
  induction l with
  | nil => intro s; rfl
  | cons a l ih => intro s; simp [runTrace, ih]

theorem stateAt_zero (s : ManualControlState) (l : List CycleInput) :
    stateAt s l 0 = s := rfl

theorem stateAt_succ (l : List CycleInput) :
    ∀ (s : ManualControlState) (k : Nat), k < l.length →
    stateAt s l (k + 1) =
      (ManualControl.Run (stateAt s l k) (l.getD k dfltInput)).1 := by
  induction l with
  | nil => intro s k hk; simp at hk
  | cons a l ih =>
    intro s k hk
    cases k with
    | zero => simp [stateAt, runState]
    | succ m =>
      have h' : m < l.length := by simpa using Nat.lt_of_succ_lt_succ hk
      have := ih (ManualControl.Run s a).1 m h'
      simpa [stateAt, runState] using this

theorem outAt_eq (l : List CycleInput) :
    ∀ (s : ManualControlState) (k : Nat), k < l.length →
    outAt s l k =
      (ManualControl.Run (stateAt s l k) (l.getD k dfltInput)).2 := by
  induction l with
  | nil => intro s k hk; simp at hk
  | cons a l ih =>
    intro s k hk
    cases k with
    | zero => simp [outAt, stateAt, runTrace, runState]
    | succ m =>
      have h' : m < l.length := by simpa using Nat.lt_of_succ_lt_succ hk
      have := ih (ManualControl.Run s a).1 m h'
      simpa [outAt, stateAt, runTrace, runState] using this

theorem getD_mem (l : List CycleInput) (k : Nat) (hk : k < l.length) :
    l.getD k dfltInput ∈ l := by
  rw [List.getD_eq_getElem l dfltInput hk]
  exact List.getElem_mem hk

/-! ## Edge-trigger characterization over all-valid traces -/

theorem prevArm_at (s0 : ManualControlState) (l : List CycleInput)
    (hv : ∀ inp ∈ l, inp.sel_valid = true) (k : Nat) (hk : k < l.length) :
    (stateAt s0 l (k + 1)).previous_arm_gesture = pubArm (outAt s0 l k) := by
  rw [stateAt_succ l s0 k hk, outAt_eq l s0 k hk]
  exact (run_valid_arm _ _ (hv _ (getD_mem l k hk))).2

theorem prevDisarm_at (s0 : ManualControlState) (l : List CycleInput)
    (hv : ∀ inp ∈ l, inp.sel_valid = true) (k : Nat) (hk : k < l.length) :
    (stateAt s0 l (k + 1)).previous_disarm_gesture = pubDisarm (outAt s0 l k) := by
  rw [stateAt_succ l s0 k hk, outAt_eq l s0 k hk]
  exact (run_valid_disarm _ _ (hv _ (getD_mem l k hk))).2

theorem armCmd_char (s0 : ManualControlState) (l : List CycleInput)
    (hv : ∀ inp ∈ l, inp.sel_valid = true) (k : Nat) (hk : k < l.length) :
    (outAt s0 l k).arm_command =
      (pubArm (outAt s0 l k) &&
        !(if k = 0 then s0.previous_arm_gesture else pubArm (outAt s0 l (k - 1)))) := by
  cases k with
  | zero =>
    rw [outAt_eq l s0 0 hk]
    simpa using (run_valid_arm (stateAt s0 l 0) _ (hv _ (getD_mem l 0 hk))).1
  | succ m =>
    have hm : m < l.length := Nat.lt_of_succ_lt hk
    rw [outAt_eq l s0 (m + 1) hk]
    have h1 := (run_valid_arm (stateAt s0 l (m + 1)) _ (hv _ (getD_mem l (m + 1) hk))).1
    rw [h1, prevArm_at s0 l hv m hm]
    simp

theorem disarmCmd_char (s0 : ManualControlState) (l : List CycleInput)
    (hv : ∀ inp ∈ l, inp.sel_valid = true) (k : Nat) (hk : k < l.length) :
    (outAt s0 l k).disarm_command =
      (pubDisarm (outAt s0 l k) &&
        !(if k = 0 then s0.previous_disarm_gesture else pubDisarm (outAt s0 l (k - 1)))) := by
  cases k with
  | zero =>
    rw [outAt_eq l s0 0 hk]
    simpa using (run_valid_disarm (stateAt s0 l 0) _ (hv _ (getD_mem l 0 hk))).1
  | succ m =>
    have hm : m < l.length := Nat.lt_of_succ_lt hk
    rw [outAt_eq l s0 (m + 1) hk]
    have h1 := (run_valid_disarm (stateAt s0 l (m + 1)) _ (hv _ (getD_mem l (m + 1) hk))).1
    rw [h1, prevDisarm_at s0 l hv m hm]
    simp

/-- C1: Arm command edge-trigger.  Over any sequence of cycles in which the
selector's setpoint is valid every cycle, consider any window `i..j` of
cycles in which the confirmed arm-gesture state is continuously true and
which begins with a false→true transition of the confirmed state (the edge
memory is false entering cycle `i`, i.e. the initial memory for `i = 0`,
else the confirmed state of cycle `i-1` is false).  Then exactly one arm
command is sent: at cycle `i`, and at no later cycle of the window.  Since
the window `i..j` is arbitrary, a later false→true transition after the
confirmed state has returned to false again sends exactly one more command.
The same holds for disarm with the disarm command. -/
theorem ManualControl.arm_disarm_command_edge_trigger_once
    (s0 : ManualControlState) (inputs : List CycleInput)
    (hvalid : ∀ inp ∈ inputs, inp.sel_valid = true)
    (i j : Nat) (hij : i ≤ j) (hj : j < inputs.length) :
    (((∀ k, i ≤ k → k ≤ j → pubArm (outAt s0 inputs k) = true) ∧
      (if i = 0 then s0.previous_arm_gesture = false
       else pubArm (outAt s0 inputs (i - 1)) = false)) →
      ((outAt s0 inputs i).arm_command = true ∧
       ∀ k, i < k → k ≤ j → (outAt s0 inputs k).arm_command = false)) ∧
    (((∀ k, i ≤ k → k ≤ j → pubDisarm (outAt s0 inputs k) = true) ∧
      (if i = 0 then s0.previous_disarm_gesture = false
       else pubDisarm (outAt s0 inputs (i - 1)) = false)) →
      ((outAt s0 inputs i).disarm_command = true ∧
       ∀ k, i < k → k ≤ j → (outAt s0 inputs k).disarm_command = false)) := by
  constructor
  · rintro ⟨htrue, hedge⟩
    have hi : i < inputs.length := Nat.lt_of_le_of_lt hij hj
    constructor
    · rw [armCmd_char s0 inputs hvalid i hi, htrue i le_rfl hij]
      by_cases h0 : i = 0
      · rw [if_pos h0] at hedge ⊢
        simp [hedge]
      · rw [if_neg h0] at hedge ⊢
        simp [hedge]
    · intro k hik hkj
      have hk : k < inputs.length := Nat.lt_of_le_of_lt hkj hj
      have hk0 : k ≠ 0 := by omega
      rw [armCmd_char s0 inputs hvalid k hk, if_neg hk0,
        htrue (k - 1) (by omega) (by omega)]
      simp
  · rintro ⟨htrue, hedge⟩
    have hi : i < inputs.length := Nat.lt_of_le_of_lt hij hj
    constructor
    · rw [disarmCmd_char s0 inputs hvalid i hi, htrue i le_rfl hij]
      by_cases h0 : i = 0
      · rw [if_pos h0] at hedge ⊢
        simp [hedge]
      · rw [if_neg h0] at hedge ⊢
        simp [hedge]
    · intro k hik hkj
      have hk : k < inputs.length := Nat.lt_of_le_of_lt hkj hj
      have hk0 : k ≠ 0 := by omega
      rw [disarmCmd_char s0 inputs hvalid k hk, if_neg hk0,
        htrue (k - 1) (by omega) (by omega)]
      simp

/-- Witness for C1 at a concrete input: a single valid cycle on which the
confirmed arm state transitions false→true; the arm command fires there. -/
theorem ManualControl.arm_disarm_command_edge_trigger_once_witness :
    (∀ inp ∈ [wArmInput], inp.sel_valid = true) ∧ 0 ≤ 0 ∧ 0 < [wArmInput].length ∧
    (∀ k, 0 ≤ k → k ≤ 0 → pubArm (outAt wArmPrimedState [wArmInput] k) = true) ∧
    (outAt wArmPrimedState [wArmInput] 0).arm_command = true := by
  have hv : ∀ inp ∈ [wArmInput], inp.sel_valid = true := by
    intro inp h
    simp only [List.mem_singleton] at h
    rw [h]
    rfl
  have htrue : ∀ k, 0 ≤ k → k ≤ 0 → pubArm (outAt wArmPrimedState [wArmInput] k) = true := by
    intro k h1 h2
    have hk : k = 0 := Nat.le_zero.mp h2
    rw [hk]
    decide
  refine ⟨hv, le_rfl, by decide, htrue, ?_⟩
  exact ((ManualControl.arm_disarm_command_edge_trigger_once wArmPrimedState [wArmInput]
    hv 0 0 le_rfl (by decide)).1 ⟨htrue, by decide⟩).1

theorem runState_invalid_prev (invs : List CycleInput) :
    ∀ s : ManualControlState, (∀ i ∈ invs, i.sel_valid = false) →
    (runState s invs).previous_arm_gesture = s.previous_arm_gesture ∧
    (runState s invs).previous_disarm_gesture = s.previous_disarm_gesture := by
  induction invs with
  | nil => intro s _; exact ⟨rfl, rfl⟩
  | cons a l ih =>
    intro s hall
    have ha : a.sel_valid = false := hall a (List.mem_cons_self a l)
    have hrest : ∀ i ∈ l, i.sel_valid = false := fun i hi => hall i (List.mem_cons_of_mem a hi)
    have hstep := run_invalid_state s a ha
    have := ih (ManualControl.Run s a).1 hrest
    simp only [runState]
    exact ⟨this.1.trans hstep.2.2.2.2.2.2.2.2.1,
           this.2.trans hstep.2.2.2.2.2.2.2.2.2.1⟩

/-- C10: Gesture state persists across invalid episodes.  On a cycle with an
invalid setpoint neither hysteresis timer is updated (candidate, confirmed
state and debounce start time are untouched) and the previous-gesture edge
memories are not reset; consequently, starting from a state whose arm (resp.
disarm) edge memory is set — i.e. the confirmed state was true on the last
valid cycle — running any number of invalid cycles followed by a valid cycle
on which the confirmed state is still true emits no new arm (resp. disarm)
command at re-entry. -/
theorem ManualControl.gesture_state_persists_across_invalid :
    (∀ (s : ManualControlState) (inp : CycleInput), inp.sel_valid = false →
      (ManualControl.Run s inp).1.stick_arm_hysteresis.candidate
          = s.stick_arm_hysteresis.candidate ∧
      (ManualControl.Run s inp).1.stick_arm_hysteresis.confirmed
          = s.stick_arm_hysteresis.confirmed ∧
      (ManualControl.Run s inp).1.stick_arm_hysteresis.lastChange
          = s.stick_arm_hysteresis.lastChange ∧
      (ManualControl.Run s inp).1.stick_disarm_hysteresis.candidate
          = s.stick_disarm_hysteresis.candidate ∧
      (ManualControl.Run s inp).1.stick_disarm_hysteresis.confirmed
          = s.stick_disarm_hysteresis.confirmed ∧
      (ManualControl.Run s inp).1.stick_disarm_hysteresis.lastChange
          = s.stick_disarm_hysteresis.lastChange ∧
      (ManualControl.Run s inp).1.previous_arm_gesture = s.previous_arm_gesture ∧
      (ManualControl.Run s inp).1.previous_disarm_gesture = s.previous_disarm_gesture) ∧
    (∀ (s : ManualControlState) (invs : List CycleInput) (v : CycleInput),
      (∀ i ∈ invs, i.sel_valid = false) → v.sel_valid = true →
      s.previous_arm_gesture = true →
      pubArm (ManualControl.Run (runState s invs) v).2 = true →
      (ManualControl.Run (runState s invs) v).2.arm_command = false) ∧
    (∀ (s : ManualControlState) (invs : List CycleInput) (v : CycleInput),
      (∀ i ∈ invs, i.sel_valid = false) → v.sel_valid = true →
      s.previous_disarm_gesture = true →
      pubDisarm (ManualControl.Run (runState s invs) v).2 = true →
      (ManualControl.Run (runState s invs) v).2.disarm_command = false) := by
  refine ⟨?_, ?_, ?_⟩
  · intro s inp h
    have hstep := run_invalid_state s inp h
    exact ⟨hstep.1, hstep.2.1, hstep.2.2.1, hstep.2.2.2.2.1, hstep.2.2.2.2.2.1,
      hstep.2.2.2.2.2.2.1, hstep.2.2.2.2.2.2.2.2.1, hstep.2.2.2.2.2.2.2.2.2.1⟩
  · intro s invs v hinvs hv hprev hg
    have hpres := (runState_invalid_prev invs s hinvs).1
    have := (run_valid_arm (runState s invs) v hv).1
    rw [this, hg, hpres, hprev]
    rfl
  · intro s invs v hinvs hv hprev hg
    have hpres := (runState_invalid_prev invs s hinvs).2
    have := (run_valid_disarm (runState s invs) v hv).1
    rw [this, hg, hpres, hprev]
    rfl

/-- Witness for C10 at concrete inputs: with the arm gesture confirmed and
its edge memory set, one invalid cycle followed by a valid cycle that keeps
the confirmed arm state true emits no arm command. -/
theorem ManualControl.gesture_state_persists_across_invalid_witness :
    wInvalidInput.sel_valid = false ∧ wArmInput.sel_valid = true ∧
    wArmHeldState.previous_arm_gesture = true ∧
    pubArm (ManualControl.Run (runState wArmHeldState [wInvalidInput]) wArmInput).2 = true ∧
    (ManualControl.Run (runState wArmHeldState [wInvalidInput]) wArmInput).2.arm_command
      = false := by
  refine ⟨rfl, rfl, rfl, by decide, ?_⟩
  exact (ManualControl.gesture_state_persists_across_invalid).2.1 wArmHeldState
    [wInvalidInput] wArmInput
    (by intro i hi; simp only [List.mem_singleton] at hi; rw [hi]; rfl)
    rfl rfl (by decide)

/-- C3: Invalid-publish latch.  Over any trace, during a maximal run `i..j`
of consecutive cycles on which the selector's setpoint is invalid (entered
either at the start of the trace with the latch clear, or from a valid
cycle), the setpoint is published exactly once: on cycle `i`, and on no
later cycle of the run.  Moreover every valid cycle clears the latch, so a
later invalidation episode again publishes exactly once. -/
theorem ManualControl.invalid_setpoint_published_once_per_episode
    (s0 : ManualControlState) (inputs : List CycleInput)
    (i j : Nat) (hij : i ≤ j) (hj : j < inputs.length) :
    (((∀ k, i ≤ k → k ≤ j → (inputs.getD k dfltInput).sel_valid = false) ∧
      (if i = 0 then s0.published_invalid_once = false
       else (inputs.getD (i - 1) dfltInput).sel_valid = true)) →
      ((outAt s0 inputs i).published.isSome = true ∧
       ∀ k, i < k → k ≤ j → (outAt s0 inputs k).published = none)) ∧
    (∀ (s : ManualControlState) (inp : CycleInput), inp.sel_valid = true →
      (ManualControl.Run s inp).1.published_invalid_once = false) := by
  constructor
  · rintro ⟨hinv, hedge⟩
    have hi : i < inputs.length := Nat.lt_of_le_of_lt hij hj
    have hlatch_i : (stateAt s0 inputs i).published_invalid_once = false := by
      cases i with
      | zero =>
        rw [if_pos rfl] at hedge
        exact hedge
      | succ m =>
        rw [if_neg (Nat.succ_ne_zero m)] at hedge
        have hm : m < inputs.length := Nat.lt_of_succ_lt hi
        rw [stateAt_succ inputs s0 m hm, run_latch]
        simp only [Nat.add_sub_cancel] at hedge
        rw [hedge]
        rfl
    constructor
    · rw [outAt_eq inputs s0 i hi,
        run_invalid_published _ _ (by simpa using hinv i le_rfl hij), hlatch_i]
      rfl
    · intro k hik hkj
      have hk : k < inputs.length := Nat.lt_of_le_of_lt hkj hj
      have hk1 : k - 1 < inputs.length := by omega
      have hlatch : (stateAt s0 inputs k).published_invalid_once = true := by
        have hstep := stateAt_succ inputs s0 (k - 1) hk1
        have hkeq : k - 1 + 1 = k := by omega
        rw [hkeq] at hstep
        rw [hstep, run_latch, hinv (k - 1) (by omega) (by omega)]
        rfl
      rw [outAt_eq inputs s0 k hk]
      exact run_invalid_pub_none _ _ (hinv k (by omega) hkj) hlatch
  · intro s inp h
    rw [run_latch, h]
    rfl

/-- Witness for C3 at a concrete input: from a clear latch, a single invalid
cycle publishes the invalid setpoint. -/
theorem ManualControl.invalid_setpoint_published_once_per_episode_witness :
    0 ≤ 0 ∧ 0 < [wInvalidInput].length ∧
    (∀ k, 0 ≤ k → k ≤ 0 → ([wInvalidInput].getD k dfltInput).sel_valid = false) ∧
    wBaseState.published_invalid_once = false ∧
    (outAt wBaseState [wInvalidInput] 0).published.isSome = true := by
  have hinv : ∀ k, 0 ≤ k → k ≤ 0 →
      ([wInvalidInput].getD k dfltInput).sel_valid = false := by
    intro k _ h2
    have hk : k = 0 := Nat.le_zero.mp h2
    rw [hk]
    rfl
  refine ⟨le_rfl, by decide, hinv, rfl, ?_⟩
  exact ((ManualControl.invalid_setpoint_published_once_per_episode wBaseState
    [wInvalidInput] 0 0 le_rfl (by decide)).1 ⟨hinv, by rw [if_pos rfl]; rfl⟩).1

theorem ratAbs_eq_abs (q : ℚ) : ratAbs q = |q| := by
  unfold ratAbs
  split_ifs with h
  · exact (abs_of_neg h).symm
  · exact (abs_of_nonneg (le_of_not_lt h)).symm

/-- C4: Gesture candidate computation.  On every valid cycle the arm
hysteresis timer is fed the candidate `z < 0.1 ∧ r > 0.9 ∧ |x| < 0.1 ∧
|y| < 0.1` and the disarm hysteresis timer the candidate `z < 0.1 ∧
r < -0.9 ∧ |x| < 0.1 ∧ |y| < 0.1`, both stamped with the setpoint's own
timestamp as produced by the selector, while the published setpoint's
timestamp is the wall clock `now`, written only afterwards. -/
theorem ManualControl.gesture_candidates_fed_with_setpoint_timestamp
    (s : ManualControlState) (inp : CycleInput) (h : inp.sel_valid = true) :
    (ManualControl.Run s inp).1.stick_arm_hysteresis =
      (paramPhase s inp).stick_arm_hysteresis.set_state_and_update
        (armGestureCandidate inp.sel_x inp.sel_y inp.sel_z inp.sel_r) inp.sel_timestamp ∧
    (ManualControl.Run s inp).1.stick_disarm_hysteresis =
      (paramPhase s inp).stick_disarm_hysteresis.set_state_and_update
        (disarmGestureCandidate inp.sel_x inp.sel_y inp.sel_z inp.sel_r) inp.sel_timestamp ∧
    ∀ sp, (ManualControl.Run s inp).2.published = some sp → sp.timestamp = inp.now := by
  have harm : ∀ x y z r : ℚ,
      ((decide (z < 1/10) && decide (r > 9/10)) &&
        (decide (ratAbs x < 1/10) && decide (ratAbs y < 1/10)))
        = armGestureCandidate x y z r := by
    intro x y z r
    simp [armGestureCandidate, Bool.and_assoc]
  have hdisarm : ∀ x y z r : ℚ,
      ((decide (z < 1/10) && decide (r < -(9/10 : ℚ))) &&
        (decide (ratAbs x < 1/10) && decide (ratAbs y < 1/10)))
        = disarmGestureCandidate x y z r := by
    intro x y z r
    simp [disarmGestureCandidate, Bool.and_assoc]
  refine ⟨?_, ?_, ?_⟩ <;>
    cases hp : inp.param_updated <;>
    simp only [ManualControl.Run, mainPhase, paramPhase, selectorPhase, hp, h, if_true,
      if_false, Bool.false_eq_true, validCycle, harm, hdisarm]
  · intro sp hsp
    cases hsp
    rfl
  · intro sp hsp
    cases hsp
    rfl

/-- Witness for C4 at a concrete input. -/
theorem ManualControl.gesture_candidates_fed_with_setpoint_timestamp_witness :
    wArmInput.sel_valid = true ∧
    (ManualControl.Run wBaseState wArmInput).1.stick_arm_hysteresis =
      (paramPhase wBaseState wArmInput).stick_arm_hysteresis.set_state_and_update
        (armGestureCandidate wArmInput.sel_x wArmInput.sel_y wArmInput.sel_z wArmInput.sel_r)
        wArmInput.sel_timestamp := by
  exact ⟨rfl, (ManualControl.gesture_candidates_fed_with_setpoint_timestamp
    wBaseState wArmInput rfl).1⟩

/-- C5: Override detection formula.  On a valid cycle with all four previous
axis values known, the published setpoint's `user_override` flag is true iff
one of `|x − previous_x|`, `|y − previous_y|`, `|r − previous_r|` strictly
exceeds `minimum_stick_change = 0.01 · COM_RC_STICK_OV`, or
`|z − previous_z| · 2` strictly exceeds it. -/
theorem ManualControl.user_override_iff_stick_delta_exceeds
    (s : ManualControlState) (inp : CycleInput) (px py pz pr : ℚ)
    (h : inp.sel_valid = true)
    (hx : s.previous_x = some px) (hy : s.previous_y = some py)
    (hz : s.previous_z = some pz) (hr : s.previous_r = some pr) :
    ∀ sp, (ManualControl.Run s inp).2.published = some sp →
      (sp.user_override = true ↔
        (|inp.sel_x - px| > (1/100 : ℚ) * (paramPhase s inp).params.com_rc_stick_ov ∨
         |inp.sel_y - py| > (1/100 : ℚ) * (paramPhase s inp).params.com_rc_stick_ov ∨
         |inp.sel_r - pr| > (1/100 : ℚ) * (paramPhase s inp).params.com_rc_stick_ov ∨
         |inp.sel_z - pz| * 2 > (1/100 : ℚ) * (paramPhase s inp).params.com_rc_stick_ov)) := by
  cases hp : inp.param_updated <;>
    simp only [ManualControl.Run, mainPhase, paramPhase, selectorPhase, hp, h, if_true,
      if_false, Bool.false_eq_true, validCycle] <;>
  · intro sp hsp
    cases hsp
    simp only [hx, hy, hz, hr, deltaExceeds, deltaDoubledExceeds, ratAbs_eq_abs]
    simp [or_assoc, or_comm, or_left_comm]

/-- Witness for C5 at a concrete input: previous axes centered, `r` moved to
1, threshold 0.3, so `user_override` is true. -/
theorem ManualControl.user_override_iff_stick_delta_exceeds_witness :
    wArmInput.sel_valid = true ∧
    wPrevState.previous_x = some 0 ∧ wPrevState.previous_y = some 0 ∧
    wPrevState.previous_z = some 0 ∧ wPrevState.previous_r = some 0 ∧
    (∀ sp, (ManualControl.Run wPrevState wArmInput).2.published = some sp →
      (sp.user_override = true ↔
        (|wArmInput.sel_x - 0| > (1/100 : ℚ) * (paramPhase wPrevState wArmInput).params.com_rc_stick_ov ∨
         |wArmInput.sel_y - 0| > (1/100 : ℚ) * (paramPhase wPrevState wArmInput).params.com_rc_stick_ov ∨
         |wArmInput.sel_r - 0| > (1/100 : ℚ) * (paramPhase wPrevState wArmInput).params.com_rc_stick_ov ∨
         |wArmInput.sel_z - 0| * 2 > (1/100 : ℚ) * (paramPhase wPrevState wArmInput).params.com_rc_stick_ov))) := by
  exact ⟨rfl, rfl, rfl, rfl, rfl,
    ManualControl.user_override_iff_stick_delta_exceeds wPrevState wArmInput 0 0 0 0
      rfl rfl rfl rfl rfl⟩

theorem run_valid_override_of_none (s : ManualControlState) (inp : CycleInput)
    (h : inp.sel_valid = true)
    (hx : s.previous_x = none) (hy : s.previous_y = none)
    (hz : s.previous_z = none) (hr : s.previous_r = none) :
    ∀ sp, (ManualControl.Run s inp).2.published = some sp → sp.user_override = false := by
  cases hp : inp.param_updated <;>
    simp only [ManualControl.Run, mainPhase, paramPhase, selectorPhase, hp, h, if_true,
      if_false, Bool.false_eq_true, validCycle] <;>
  · intro sp hsp
    cases hsp
    simp only [hx, hy, hz, hr, deltaExceeds, deltaDoubledExceeds]
    rfl

/-- C6: Previous-axis reset on invalidity.  On every cycle with an invalid
setpoint the stored previous axis values are set to the unknown sentinel
(NaN, modelled as `none`), and consequently on the first valid cycle after
any invalid cycle `user_override` is false regardless of the new axis
values. -/
theorem ManualControl.previous_axes_reset_on_invalid
    (s : ManualControlState) (i1 i2 : CycleInput)
    (h1 : i1.sel_valid = false) (h2 : i2.sel_valid = true) :
    (ManualControl.Run s i1).1.previous_x = none ∧
    (ManualControl.Run s i1).1.previous_y = none ∧
    (ManualControl.Run s i1).1.previous_z = none ∧
    (ManualControl.Run s i1).1.previous_r = none ∧
    (∀ sp, (ManualControl.Run (ManualControl.Run s i1).1 i2).2.published = some sp →
      sp.user_override = false) := by
  have hstep := run_invalid_state s i1 h1
  have hx := hstep.2.2.2.2.2.2.2.2.2.2.2.2.1
  have hy := hstep.2.2.2.2.2.2.2.2.2.2.2.2.2.1
  have hz := hstep.2.2.2.2.2.2.2.2.2.2.2.2.2.2.1
  have hr := hstep.2.2.2.2.2.2.2.2.2.2.2.2.2.2.2
  exact ⟨hx, hy, hz, hr,
    run_valid_override_of_none (ManualControl.Run s i1).1 i2 h2 hx hy hz hr⟩

/-- Witness for C6 at concrete inputs: an invalid cycle followed by a valid
cycle with the stick thrown to full yaw still reports no override. -/
theorem ManualControl.previous_axes_reset_on_invalid_witness :
    wInvalidInput.sel_valid = false ∧ wArmInput.sel_valid = true ∧
    (ManualControl.Run wPrevState wInvalidInput).1.previous_x = none ∧
    (∀ sp, (ManualControl.Run
        (ManualControl.Run wPrevState wInvalidInput).1 wArmInput).2.published = some sp →
      sp.user_override = false) := by
  have h := ManualControl.previous_axes_reset_on_invalid wPrevState wInvalidInput wArmInput
    rfl rfl
  exact ⟨rfl, rfl, h.1, h.2.2.2.2⟩

/-- C7: Asymmetric hysteresis configuration.  The hold-duration setter
configures one direction at a time (setting the duration for leaving `true`
does not touch the duration for leaving `false` and vice versa), and on
every configuration (re)load the false→true hold duration of each gesture
timer is set from the arm-hysteresis parameter while its true→false hold
duration is independently left as configured — so the duration to confirm
becoming true may differ from the duration to confirm becoming false. -/
theorem ManualControl.hysteresis_hold_durations_set_per_direction
    (s : ManualControlState) (inp : CycleInput) (h : inp.param_updated = true) :
    (∀ (hy : Hysteresis) (d : Nat),
      (hy.set_hysteresis_time_from true d).timeFromTrue = d ∧
      (hy.set_hysteresis_time_from true d).timeFromFalse = hy.timeFromFalse ∧
      (hy.set_hysteresis_time_from false d).timeFromFalse = d ∧
      (hy.set_hysteresis_time_from false d).timeFromTrue = hy.timeFromTrue) ∧
    (paramPhase s inp).stick_arm_hysteresis.timeFromFalse = inp.params.rc_arm_hyst * 1000 ∧
    (paramPhase s inp).stick_arm_hysteresis.timeFromTrue
      = s.stick_arm_hysteresis.timeFromTrue ∧
    (paramPhase s inp).stick_disarm_hysteresis.timeFromFalse
      = inp.params.rc_arm_hyst * 1000 ∧
    (paramPhase s inp).stick_disarm_hysteresis.timeFromTrue
      = s.stick_disarm_hysteresis.timeFromTrue := by
  refine ⟨fun hy d => ⟨rfl, rfl, rfl, rfl⟩, ?_, ?_, ?_, ?_⟩ <;>
    simp [paramPhase, h, Hysteresis.set_hysteresis_time_from]

/-- Witness for C7 at a concrete input. -/
theorem ManualControl.hysteresis_hold_durations_set_per_direction_witness :
    wParamInput.param_updated = true ∧
    (paramPhase wBaseState wParamInput).stick_arm_hysteresis.timeFromFalse
      = wParamInput.params.rc_arm_hyst * 1000 ∧
    (paramPhase wBaseState wParamInput).stick_arm_hysteresis.timeFromTrue
      = wBaseState.stick_arm_hysteresis.timeFromTrue := by
  have h := ManualControl.hysteresis_hold_durations_set_per_direction wBaseState
    wParamInput rfl
  exact ⟨rfl, h.2.1, h.2.2.1⟩

/-- C8: Hot reload of derived constants.  On any cycle with a pending
parameter-update notification, the parameter block re-derives the arm and
disarm gesture hysteresis durations from the arm-hysteresis parameter
(ms → µs) and the selector's input mode and source-loss timeout (s → µs)
from their parameters; and the whole cycle is the main phase (sample
processing and the valid/invalid branch) run strictly after this parameter
block, so the cycle's input processing already uses the re-derived
constants, without restarting the loop. -/
theorem ManualControl.param_update_rederives_derived_constants
    (s : ManualControlState) (inp : CycleInput) (h : inp.param_updated = true) :
    (paramPhase s inp).stick_arm_hysteresis.timeFromFalse = inp.params.rc_arm_hyst * 1000 ∧
    (paramPhase s inp).stick_disarm_hysteresis.timeFromFalse
      = inp.params.rc_arm_hyst * 1000 ∧
    (paramPhase s inp).selCfg.rc_in_mode = inp.params.com_rc_in_mode ∧
    (paramPhase s inp).selCfg.timeout = inp.params.com_rc_loss_t * 1000000 ∧
    (paramPhase s inp).params = inp.params ∧
    ManualControl.Run s inp = mainPhase (paramPhase s inp) inp := by
  refine ⟨?_, ?_, ?_, ?_, ?_, rfl⟩ <;>
    simp [paramPhase, h, Hysteresis.set_hysteresis_time_from]

/-- Witness for C8 at a concrete input. -/
theorem ManualControl.param_update_rederives_derived_constants_witness :
    wParamInput.param_updated = true ∧
    (paramPhase wBaseState wParamInput).selCfg.timeout
      = wParamInput.params.com_rc_loss_t * 1000000 ∧
    ManualControl.Run wBaseState wParamInput = mainPhase (paramPhase wBaseState wParamInput)
      wParamInput := by
  have h := ManualControl.param_update_rederives_derived_constants wBaseState wParamInput rfl
  exact ⟨rfl, h.2.2.2.1, h.2.2.2.2.2⟩

/-- C9: Switch noninterference.  Two runs of a cycle that differ only in the
received switch sample (its content, or whether one arrived at all) produce
identical module states and identical outputs: the published setpoint and
any emitted arm/disarm command are unaffected by switch data. -/
theorem ManualControl.switch_noninterference
    (s : ManualControlState) (inp : CycleInput) (b : Bool) (w : SwitchSample) :
    ManualControl.Run s { inp with switches_updated := b, switches := w } =
      ManualControl.Run s inp := rfl

/-! ## Mutual exclusion of the confirmed gesture states (C2) -/

theorem Hysteresis.step_drop (h : Hysteresis) (t : Nat)
    (htft : h.timeFromTrue = 0) (hlc : h.lastChange ≤ t)
    (hc : (h.set_state_and_update false t).confirmed = true) :
    h.confirmed = true ∧ (h.set_state_and_update false t).lastChange = t := by
  unfold Hysteresis.set_state_and_update Hysteresis.updateConfirmed at hc ⊢
  cases hcand : h.candidate <;> cases hconf : h.confirmed <;>
    simp_all <;> split_ifs at * <;> simp_all <;> omega

theorem Hysteresis.step_confirm_origin (h : Hysteresis) (t : Nat)
    (hc : (h.set_state_and_update true t).confirmed = true) :
    h.confirmed = true ∨
      ((h.set_state_and_update true t).lastChange + h.timeFromFalse < t) := by
  unfold Hysteresis.set_state_and_update Hysteresis.updateConfirmed at hc ⊢
  cases hcand : h.candidate <;> cases hconf : h.confirmed <;>
    simp_all <;> split_ifs at * <;> simp_all

theorem Hysteresis.step_lastChange_le (h : Hysteresis) (c : Bool) (t : Nat)
    (hlc : h.lastChange ≤ t) : (h.set_state_and_update c t).lastChange ≤ t := by
  rw [Hysteresis.step_lastChange]
  split_ifs <;> omega

theorem hpair_step (A Dh : Hysteresis) (spA spD : Bool) (t : Nat)
    (hInv : HPairInv A Dh spA spD t) (ca cd : Bool)
    (hex : ¬(ca = true ∧ cd = true)) (t' : Nat) (ht : t ≤ t') :
    HPairInv (A.set_state_and_update ca t') (Dh.set_state_and_update cd t')
      (A.set_state_and_update ca t').confirmed
      (Dh.set_state_and_update cd t').confirmed t' := by
  have halc' : A.lastChange ≤ t' := le_trans hInv.a_lc ht
  have hdlc' : Dh.lastChange ≤ t' := le_trans hInv.d_lc ht
  have hmain : ¬((A.set_state_and_update ca t').confirmed = true ∧
      (Dh.set_state_and_update cd t').confirmed = true) := by
    rintro ⟨hA', hD'⟩
    cases hca : ca
    · rw [hca] at hA'
      have hdropA := Hysteresis.step_drop A t' hInv.a_tft halc' hA'
      cases hcd : cd
      · rw [hcd] at hD'
        have hdropD := Hysteresis.step_drop Dh t' hInv.d_tft hdlc' hD'
        exact hInv.conf_excl ⟨hdropA.1, hdropD.1⟩
      · rw [hcd] at hD'
        rcases Hysteresis.step_confirm_origin Dh t' hD' with hDold | harith
        · exact hInv.conf_excl ⟨hdropA.1, hDold⟩
        · rw [Hysteresis.step_lastChange] at harith
          by_cases hdc2 : (true : Bool) = Dh.candidate
          · rw [if_pos hdc2] at harith
            have hAl := hdropA.2
            rw [Hysteresis.step_lastChange] at hAl
            by_cases hac2 : (false : Bool) = A.candidate
            · rw [if_pos hac2] at hAl
              have hcross := hInv.a_cross hdropA.1 hdc2.symm
              omega
            · have hAc : A.candidate = true := by
                cases hav : A.candidate
                · exact absurd hav.symm hac2
                · rfl
              exact hInv.cand_excl ⟨hAc, hdc2.symm⟩
          · rw [if_neg hdc2] at harith
            omega
    · have hcd : cd = false := by
        cases hcdv : cd
        · rfl
        · exact absurd ⟨hca, hcdv⟩ hex
      rw [hca] at hA'
      rw [hcd] at hD'
      have hdropD := Hysteresis.step_drop Dh t' hInv.d_tft hdlc' hD'
      rcases Hysteresis.step_confirm_origin A t' hA' with hAold | harith
      · exact hInv.conf_excl ⟨hAold, hdropD.1⟩
      · rw [Hysteresis.step_lastChange] at harith
        by_cases hac2 : (true : Bool) = A.candidate
        · rw [if_pos hac2] at harith
          have hDl := hdropD.2
          rw [Hysteresis.step_lastChange] at hDl
          by_cases hdc2 : (false : Bool) = Dh.candidate
          · rw [if_pos hdc2] at hDl
            have hcross := hInv.d_cross hdropD.1 hac2.symm
            omega
          · have hDc : Dh.candidate = true := by
              cases hdv : Dh.candidate
              · exact absurd hdv.symm hdc2
              · rfl
            exact hInv.cand_excl ⟨hac2.symm, hDc⟩
        · rw [if_neg hac2] at harith
          omega
  constructor
  · rw [Hysteresis.step_timeFromTrue]
    exact hInv.a_tft
  · rw [Hysteresis.step_timeFromTrue]
    exact hInv.d_tft
  · exact Hysteresis.step_lastChange_le A ca t' halc'
  · exact Hysteresis.step_lastChange_le Dh cd t' hdlc'
  · rw [Hysteresis.step_candidate, Hysteresis.step_candidate]
    exact hex
  · intro hc' hcand'
    rw [Hysteresis.step_candidate] at hcand'
    rw [hcand'] at hc' ⊢
    exact (Hysteresis.step_drop A t' hInv.a_tft halc' hc').2
  · intro hc' hcand'
    rw [Hysteresis.step_candidate] at hcand'
    rw [hcand'] at hc' ⊢
    exact (Hysteresis.step_drop Dh t' hInv.d_tft hdlc' hc').2
  · intro hc' hdcand'
    rw [Hysteresis.step_candidate] at hdcand'
    have hca : ca = false := by
      cases hcv : ca
      · rfl
      · exact absurd ⟨hcv, hdcand'⟩ hex
    rw [hca] at hc' ⊢
    rw [hdcand']
    have hdropA := Hysteresis.step_drop A t' hInv.a_tft halc' hc'
    rw [hdropA.2, Hysteresis.step_lastChange]
    by_cases hdc2 : (true : Bool) = Dh.candidate
    · rw [if_pos hdc2]
      have hAl := hdropA.2
      rw [Hysteresis.step_lastChange] at hAl
      by_cases hac2 : (false : Bool) = A.candidate
      · rw [if_pos hac2] at hAl
        have hcross := hInv.a_cross hdropA.1 hdc2.symm
        omega
      · have hAc : A.candidate = true := by
          cases hav : A.candidate
          · exact absurd hav.symm hac2
          · rfl
        exact absurd ⟨hAc, hdc2.symm⟩ hInv.cand_excl
    · rw [if_neg hdc2]
  · intro hc' hacand'
    rw [Hysteresis.step_candidate] at hacand'
    have hcd : cd = false := by
      cases hcv : cd
      · rfl
      · exact absurd ⟨hacand', hcv⟩ hex
    rw [hcd] at hc' ⊢
    rw [hacand']
    have hdropD := Hysteresis.step_drop Dh t' hInv.d_tft hdlc' hc'
    rw [hdropD.2, Hysteresis.step_lastChange]
    by_cases hac2 : (true : Bool) = A.candidate
    · rw [if_pos hac2]
      have hDl := hdropD.2
      rw [Hysteresis.step_lastChange] at hDl
      by_cases hdc2 : (false : Bool) = Dh.candidate
      · rw [if_pos hdc2] at hDl
        have hcross := hInv.d_cross hdropD.1 hac2.symm
        omega
      · have hDc : Dh.candidate = true := by
          cases hdv : Dh.candidate
          · exact absurd hdv.symm hdc2
          · rfl
        exact absurd ⟨hac2.symm, hDc⟩ hInv.cand_excl
    · rw [if_neg hac2]
  · exact hmain
  · exact hmain

theorem hpair_set_tff (A Dh : Hysteresis) (spA spD : Bool) (t : Nat) (d : Nat)
    (hInv : HPairInv A Dh spA spD t) :
    HPairInv (A.set_hysteresis_time_from false d) (Dh.set_hysteresis_time_from false d)
      spA spD t := by
  unfold Hysteresis.set_hysteresis_time_from
  simp only [Bool.false_eq_true, if_false]
  exact ⟨hInv.a_tft, hInv.d_tft, hInv.a_lc, hInv.d_lc, hInv.cand_excl, hInv.a_pending,
    hInv.d_pending, hInv.a_cross, hInv.d_cross, hInv.conf_excl, hInv.sp_excl⟩

theorem hpair_of_eq (A A' Dh Dh' : Hysteresis) (spA spD spA' spD' : Bool) (t : Nat)
    (hInv : HPairInv A Dh spA spD t)
    (e1 : A'.candidate = A.candidate) (e2 : A'.confirmed = A.confirmed)
    (e3 : A'.lastChange = A.lastChange) (e4 : A'.timeFromTrue = A.timeFromTrue)
    (f1 : Dh'.candidate = Dh.candidate) (f2 : Dh'.confirmed = Dh.confirmed)
    (f3 : Dh'.lastChange = Dh.lastChange) (f4 : Dh'.timeFromTrue = Dh.timeFromTrue)
    (g1 : spA' = spA) (g2 : spD' = spD) :
    HPairInv A' Dh' spA' spD' t := by
  constructor
  · rw [e4]; exact hInv.a_tft
  · rw [f4]; exact hInv.d_tft
  · rw [e3]; exact hInv.a_lc
  · rw [f3]; exact hInv.d_lc
  · rw [e1, f1]; exact hInv.cand_excl
  · rw [e1, e2, e3]; exact hInv.a_pending
  · rw [f1, f2, f3]; exact hInv.d_pending
  · rw [e2, f1, e3, f3]; exact hInv.a_cross
  · rw [f2, e1, f3, e3]; exact hInv.d_cross
  · rw [e2, f2]; exact hInv.conf_excl
  · rw [g1, g2]; exact hInv.sp_excl

theorem gestureCandidates_exclusive (x y z r : ℚ) :
    ¬((decide (z < 1/10) && decide (r > 9/10)
        && (decide (ratAbs x < 1/10) && decide (ratAbs y < 1/10))) = true ∧
      (decide (z < 1/10) && decide (r < -(9/10 : ℚ))
        && (decide (ratAbs x < 1/10) && decide (ratAbs y < 1/10))) = true) := by
  rintro ⟨h1, h2⟩
  simp only [Bool.and_eq_true, decide_eq_true_eq] at h1 h2
  linarith [h1.1.2, h2.1.2]

theorem run_valid_hpair (s : ManualControlState) (inp : CycleInput) (t : Nat)
    (hv : inp.sel_valid = true)
    (hInv : HPairInv s.stick_arm_hysteresis s.stick_disarm_hysteresis
      s.selSp.arm_gesture s.selSp.disarm_gesture t)
    (ht : t ≤ inp.sel_timestamp) :
    HPairInv (ManualControl.Run s inp).1.stick_arm_hysteresis
      (ManualControl.Run s inp).1.stick_disarm_hysteresis
      (ManualControl.Run s inp).1.selSp.arm_gesture
      (ManualControl.Run s inp).1.selSp.disarm_gesture inp.sel_timestamp := by
  cases hp : inp.param_updated <;>
    simp only [ManualControl.Run, mainPhase, paramPhase, selectorPhase, hp, hv, if_true,
      if_false, Bool.false_eq_true, validCycle, Hysteresis.get_state]
  · exact hpair_step _ _ _ _ _ hInv _ _
      (gestureCandidates_exclusive inp.sel_x inp.sel_y inp.sel_z inp.sel_r) _ ht
  · exact hpair_step _ _ _ _ _ (hpair_set_tff _ _ _ _ _ _ hInv) _ _
      (gestureCandidates_exclusive inp.sel_x inp.sel_y inp.sel_z inp.sel_r) _ ht

theorem run_invalid_hpair (s : ManualControlState) (inp : CycleInput) (t : Nat)
    (hv : inp.sel_valid = false)
    (hInv : HPairInv s.stick_arm_hysteresis s.stick_disarm_hysteresis
      s.selSp.arm_gesture s.selSp.disarm_gesture t) :
    HPairInv (ManualControl.Run s inp).1.stick_arm_hysteresis
      (ManualControl.Run s inp).1.stick_disarm_hysteresis
      (ManualControl.Run s inp).1.selSp.arm_gesture
      (ManualControl.Run s inp).1.selSp.disarm_gesture t := by
  have h := run_invalid_state s inp hv
  exact hpair_of_eq _ _ _ _ _ _ _ _ _ hInv h.1 h.2.1 h.2.2.1 h.2.2.2.1
    h.2.2.2.2.1 h.2.2.2.2.2.1 h.2.2.2.2.2.2.1 h.2.2.2.2.2.2.2.1
    h.2.2.2.2.2.2.2.2.2.2.1 h.2.2.2.2.2.2.2.2.2.2.2.1

theorem run_valid_pub_flags (s : ManualControlState) (inp : CycleInput)
    (h : inp.sel_valid = true) :
    ∀ sp, (ManualControl.Run s inp).2.published = some sp →
      sp.arm_gesture = (ManualControl.Run s inp).1.selSp.arm_gesture ∧
      sp.disarm_gesture = (ManualControl.Run s inp).1.selSp.disarm_gesture := by
  cases hp : inp.param_updated <;>
    simp only [ManualControl.Run, mainPhase, paramPhase, selectorPhase, hp, h, if_true,
      if_false, Bool.false_eq_true, validCycle] <;>
  · intro sp hsp
    cases hsp
    exact ⟨rfl, rfl⟩

theorem run_invalid_pub_flags (s : ManualControlState) (inp : CycleInput)
    (h : inp.sel_valid = false) :
    ∀ sp, (ManualControl.Run s inp).2.published = some sp →
      sp.arm_gesture = s.selSp.arm_gesture ∧
      sp.disarm_gesture = s.selSp.disarm_gesture := by
  cases hp : inp.param_updated <;> cases hl : s.published_invalid_once <;>
    simp only [ManualControl.Run, mainPhase, paramPhase, selectorPhase, hp, h, hl, if_true,
      if_false, Bool.false_eq_true, Bool.true_eq_false, invalidCycle] <;>
  · intro sp hsp
    first
    | (cases hsp; exact ⟨rfl, rfl⟩)
    | simp at hsp

theorem c2_trace (inputs : List CycleInput) :
    ∀ (s : ManualControlState) (t : Nat),
    HPairInv s.stick_arm_hysteresis s.stick_disarm_hysteresis
      s.selSp.arm_gesture s.selSp.disarm_gesture t →
    (∀ inp ∈ inputs, t ≤ inp.sel_timestamp) →
    List.Pairwise (fun a b => a ≤ b) (inputs.map (fun i => i.sel_timestamp)) →
    ∀ o ∈ runTrace s inputs, ∀ sp, o.published = some sp →
      ¬(sp.arm_gesture = true ∧ sp.disarm_gesture = true) := by
  induction inputs with
  | nil =>
    intro s t _ _ _ o ho
    simp [runTrace] at ho
  | cons inp rest ih =>
    intro s t hInv hge hpw o ho sp hsp
    rw [List.map_cons, List.pairwise_cons] at hpw
    simp only [runTrace, List.mem_cons] at ho
    cases hv : inp.sel_valid
    · -- invalid cycle: state flags and timers untouched
      have hInv' := run_invalid_hpair s inp t hv hInv
      rcases ho with ho | ho
      · rw [ho] at hsp
        have hfl := run_invalid_pub_flags s inp hv sp hsp
        rw [hfl.1, hfl.2]
        exact hInv.sp_excl
      · exact ih (ManualControl.Run s inp).1 t hInv'
          (fun i hi => hge i (List.mem_cons_of_mem inp hi)) hpw.2 o ho sp hsp
    · -- valid cycle: timers stepped at the setpoint's timestamp
      have hInv' := run_valid_hpair s inp t hv hInv (hge inp (List.mem_cons_self inp rest))
      rcases ho with ho | ho
      · rw [ho] at hsp
        have hfl := run_valid_pub_flags s inp hv sp hsp
        rw [hfl.1, hfl.2]
        exact hInv'.sp_excl
      · refine ih (ManualControl.Run s inp).1 inp.sel_timestamp hInv' ?_ hpw.2 o ho sp hsp
        intro i hi
        have := hpw.1 i.sel_timestamp (List.mem_map_of_mem (fun x => x.sel_timestamp) hi)
        exact this

/-- C2: Mutual exclusion of gestures.  Starting from the process-start state
of both gesture hysteresis timers and cleared gesture flags, for every
sequence of cycle inputs whose setpoint timestamps are non-decreasing (they
come from a monotonic clock), no published setpoint — valid or invalid —
ever carries `arm_gesture` and `disarm_gesture` both true. -/
theorem ManualControl.gesture_flags_mutually_exclusive
    (s0 : ManualControlState) (inputs : List CycleInput)
    (h1 : s0.stick_arm_hysteresis = Hysteresis.initial)
    (h2 : s0.stick_disarm_hysteresis = Hysteresis.initial)
    (h3 : s0.selSp.arm_gesture = false) (h4 : s0.selSp.disarm_gesture = false)
    (hmono : List.Pairwise (fun a b => a ≤ b) (inputs.map (fun i => i.sel_timestamp))) :
    ∀ o ∈ runTrace s0 inputs, ∀ sp, o.published = some sp →
      ¬(sp.arm_gesture = true ∧ sp.disarm_gesture = true) := by
  refine c2_trace inputs s0 0 ?_ (fun inp _ => Nat.zero_le _) hmono
  rw [h1, h2, h3, h4]
  constructor <;> simp [Hysteresis.initial]

/-- Witness for C2 at concrete inputs: a two-cycle trace that confirms the
arm gesture; no published setpoint carries both flags. -/
theorem ManualControl.gesture_flags_mutually_exclusive_witness :
    wBaseState.stick_arm_hysteresis = Hysteresis.initial ∧
    wBaseState.stick_disarm_hysteresis = Hysteresis.initial ∧
    wBaseState.selSp.arm_gesture = false ∧
    wBaseState.selSp.disarm_gesture = false ∧
    List.Pairwise (fun a b => a ≤ b)
      ([wArmInput, { wArmInput with sel_timestamp := 9 }].map (fun i => i.sel_timestamp)) ∧
    (∀ o ∈ runTrace wBaseState [wArmInput, { wArmInput with sel_timestamp := 9 }],
      ∀ sp, o.published = some sp →
        ¬(sp.arm_gesture = true ∧ sp.disarm_gesture = true)) := by
  have hmono : List.Pairwise (fun a b => a ≤ b)
      ([wArmInput, { wArmInput with sel_timestamp := 9 }].map (fun i => i.sel_timestamp)) := by
    simp [wArmInput, dfltInput]
  exact ⟨rfl, rfl, rfl, rfl, hmono,
    ManualControl.gesture_flags_mutually_exclusive wBaseState
      [wArmInput, { wArmInput with sel_timestamp := 9 }] rfl rfl rfl rfl hmono⟩
